import Mathlib

/-!
Verification of the semver matching engine and error taxonomy.

The matching engine (`matches_req`, `matches_comparator` and their helpers)
is translated from `src/eval.rs`; the error taxonomy (`ErrorKind`,
`Position`) from `src/error.rs`.  The data model (`Version`, `Comparator`,
`VersionRange`, `VersionReq`, `Identifier`) and the ordering of pre-release
identifier sequences live in the crate root, which is not part of the
sources here; they are modelled from the specification's data-model section.
-/

namespace Semver

/-- Modelled from the spec: a single dot-separated token of a pre-release or
build-metadata field, either `Numeric(u64)` or `AlphaNumeric(string)`.
The crate-root declaration of this type is not among the given sources. -/
inductive Identifier where
  | numeric (value : Nat)
  | alphaNumeric (value : String)
deriving DecidableEq, Repr

/-- Modelled from the spec: ordering of a single identifier.  Numeric
identifiers compare by value and sort before alphanumeric ones; alphanumeric
identifiers compare lexicographically by ASCII byte value. -/
def identCompare : Identifier → Identifier → Ordering
  | .numeric a, .numeric b => compare a b
  | .numeric _, .alphaNumeric _ => .lt
  | .alphaNumeric _, .numeric _ => .gt
  | .alphaNumeric a, .alphaNumeric b => compare a b

/-- Modelled from the spec: element-wise comparison of identifier sequences,
a shorter-but-equal-prefix sequence sorting lower. -/
def identSeqCompare : List Identifier → List Identifier → Ordering
  | [], [] => .eq
  | [], _ :: _ => .lt
  | _ :: _, [] => .gt
  | a :: as, b :: bs =>
    match identCompare a b with
    | .eq => identSeqCompare as bs
    | ord => ord

/-- Modelled from the spec: comparison of two `pre` sequences.  An empty
`pre` sequence sorts higher than any non-empty one (release > pre-release);
two non-empty sequences compare element-wise. -/
def preCompare : List Identifier → List Identifier → Ordering
  | [], [] => .eq
  | [], _ :: _ => .gt
  | _ :: _, [] => .lt
  | a :: as, b :: bs => identSeqCompare (a :: as) (b :: bs)

/-- Boolean form of the strict order on `pre` sequences (`<` in the source). -/
def preLtB (a b : List Identifier) : Bool :=
  preCompare a b == Ordering.lt

/-- Boolean form of the strict order on `pre` sequences (`>` in the source). -/
def preGtB (a b : List Identifier) : Bool :=
  preCompare a b == Ordering.gt

/-- Boolean form of the reflexive order on `pre` sequences (`>=` in the source). -/
def preGeB (a b : List Identifier) : Bool :=
  preCompare a b != Ordering.lt

/-- Modelled from the spec: a parsed semantic version.  The crate-root
declaration of this struct is not among the given sources. -/
structure Version where
  major : Nat
  minor : Nat
  patch : Nat
  pre : List Identifier
  build : List Identifier
deriving DecidableEq, Repr

/-- Modelled from the spec: the comparator operator tag. -/
inductive Op where
  | Exact
  | Greater
  | GreaterEq
  | Less
  | LessEq
  | Tilde
  | Caret
  | Wildcard
deriving DecidableEq, Repr

/-- Modelled from the spec: one operator plus a possibly partial version. -/
structure Comparator where
  op : Op
  major : Nat
  minor : Option Nat
  patch : Option Nat
  pre : List Identifier
deriving DecidableEq, Repr

/-- Modelled from the spec: `Simple(Comparator)` or `Hyphen(Comparator, Comparator)`. -/
inductive VersionRange where
  | Simple (cmp : Comparator)
  | Hyphen (left right : Comparator)
deriving DecidableEq, Repr

/-- Modelled from the spec: an ordered sequence of `VersionRange`. -/
structure VersionReq where
  ranges : List VersionRange
deriving DecidableEq, Repr

/-- `matches_exact` from `src/eval.rs`. -/
def matches_exact (cmp : Comparator) (ver : Version) : Bool :=
  if ver.major ≠ cmp.major then false
  else if (match cmp.minor with | some minor => ver.minor != minor | none => false) then false
  else if (match cmp.patch with | some patch => ver.patch != patch | none => false) then false
  else decide (ver.pre = cmp.pre)

/-- `matches_greater` from `src/eval.rs`. -/
def matches_greater (cmp : Comparator) (ver : Version) : Bool :=
  if ver.major ≠ cmp.major then decide (ver.major > cmp.major)
  else
    match cmp.minor with
    | none => false
    | some minor =>
      if ver.minor ≠ minor then decide (ver.minor > minor)
      else
        match cmp.patch with
        | none => false
        | some patch =>
          if ver.patch ≠ patch then decide (ver.patch > patch)
          else preGtB ver.pre cmp.pre

/-- `matches_less` from `src/eval.rs`. -/
def matches_less (cmp : Comparator) (ver : Version) : Bool :=
  if ver.major ≠ cmp.major then decide (ver.major < cmp.major)
  else
    match cmp.minor with
    | none => false
    | some minor =>
      if ver.minor ≠ minor then decide (ver.minor < minor)
      else
        match cmp.patch with
        | none => false
        | some patch =>
          if ver.patch ≠ patch then decide (ver.patch < patch)
          else preLtB ver.pre cmp.pre

/-- `matches_tilde` from `src/eval.rs`. -/
def matches_tilde (cmp : Comparator) (ver : Version) : Bool :=
  if ver.major ≠ cmp.major then false
  else if (match cmp.minor with | some minor => ver.minor != minor | none => false) then false
  else
    match cmp.patch with
    | some patch =>
      if ver.patch ≠ patch then decide (ver.patch > patch)
      else preGeB ver.pre cmp.pre
    | none => preGeB ver.pre cmp.pre

/-- `matches_caret` from `src/eval.rs`. -/
def matches_caret (cmp : Comparator) (ver : Version) : Bool :=
  if ver.major ≠ cmp.major then false
  else
    match cmp.minor with
    | none => true
    | some minor =>
      match cmp.patch with
      | none =>
        if cmp.major > 0 then decide (ver.minor ≥ minor)
        else decide (ver.minor = minor)
      | some patch =>
        if cmp.major > 0 then
          if ver.minor ≠ minor then decide (ver.minor > minor)
          else if ver.patch ≠ patch then decide (ver.patch > patch)
          else preGeB ver.pre cmp.pre
        else if minor > 0 then
          if ver.minor ≠ minor then false
          else if ver.patch ≠ patch then decide (ver.patch > patch)
          else preGeB ver.pre cmp.pre
        else
          if ver.minor ≠ minor ∨ ver.patch ≠ patch then false
          else preGeB ver.pre cmp.pre

/-- `pre_is_compatible` from `src/eval.rs`. -/
def pre_is_compatible (cmp : Comparator) (ver : Version) : Bool :=
  cmp.major == ver.major
    && cmp.minor == some ver.minor
    && cmp.patch == some ver.patch
    && !cmp.pre.isEmpty

/-- `matches_impl` from `src/eval.rs`: dispatch on the operator tag. -/
def matches_impl (cmp : Comparator) (ver : Version) : Bool :=
  match cmp.op with
  | .Exact | .Wildcard => matches_exact cmp ver
  | .Greater => matches_greater cmp ver
  | .GreaterEq => matches_exact cmp ver || matches_greater cmp ver
  | .Less => matches_less cmp ver
  | .LessEq => matches_exact cmp ver || matches_less cmp ver
  | .Tilde => matches_tilde cmp ver
  | .Caret => matches_caret cmp ver

/-- `matches_comparator` from `src/eval.rs`. -/
def matches_comparator (cmp : Comparator) (ver : Version) : Bool :=
  matches_impl cmp ver && (ver.pre.isEmpty || pre_is_compatible cmp ver)

/-- The per-range numeric test: the closure passed to the first
`req.ranges.iter().any` in `matches_req` (`src/eval.rs`). -/
def range_matches (ver : Version) : VersionRange → Bool
  | .Simple cmp => matches_impl cmp ver
  | .Hyphen left right =>
    (matches_exact left ver || matches_greater left ver)
      && (matches_exact right ver || matches_less right ver)

/-- The per-range pre-release compatibility test: the closure passed to the
second `req.ranges.iter().any` in `matches_req` (`src/eval.rs`). -/
def range_pre_compatible (ver : Version) : VersionRange → Bool
  | .Simple cmp => pre_is_compatible cmp ver
  | .Hyphen left right => pre_is_compatible left ver || pre_is_compatible right ver

/-- `matches_req` from `src/eval.rs`. -/
def matches_req (req : VersionReq) (ver : Version) : Bool :=
  if req.ranges.isEmpty then true
  else if !(req.ranges.any (range_matches ver)) then false
  else if ver.pre.isEmpty then true
  else req.ranges.any (range_pre_compatible ver)

/-- `Position` from `src/error.rs`. -/
inductive Position where
  | Major
  | Minor
  | Patch
  | Pre
  | Build
deriving DecidableEq, Repr

/-- `ErrorKind` from `src/error.rs` (including the dead-code variants). -/
inductive ErrorKind where
  | Empty
  | UnexpectedEnd (pos : Position)
  | UnexpectedChar (pos : Position) (ch : Char)
  | UnexpectedCharAfter (pos : Position) (ch : Char)
  | ExpectedCommaFound (pos : Position) (ch : Char)
  | LeadingZero (pos : Position)
  | Overflow (pos : Position)
  | EmptySegment (pos : Position)
  | IllegalCharacter (pos : Position)
  | WildcardNotTheOnlyComparator (ch : Char)
  | UnexpectedAfterWildcard
  | ExcessiveComparators
  | ExpectedComparator (ch : Char)
deriving DecidableEq

/-- The comparator(s) a range carries: the one comparator of a `Simple`
range, the two bounds of a `Hyphen` range. -/
def rangeComparators : VersionRange → List Comparator
  | .Simple cmp => [cmp]
  | .Hyphen left right => [left, right]

/-- The spec's numeric-match condition for one range (spec section 4.3,
step 2), written as a proposition. -/
def RangeMatchesSpec (ver : Version) : VersionRange → Prop
  | .Simple cmp => matches_impl cmp ver = true
  | .Hyphen lo hi =>
    (matches_exact lo ver = true ∨ matches_greater lo ver = true) ∧
    (matches_exact hi ver = true ∨ matches_less hi ver = true)

/-! Sample values for concrete witnesses. -/

/-- The numeric pre-release identifier `1`. -/
def identOne : Identifier := .numeric 1

/-- The release version `1.0.0`. -/
def verRelease : Version := ⟨1, 0, 0, [], []⟩

/-- The pre-release version `1.2.3-1`. -/
def verPre : Version := ⟨1, 2, 3, [identOne], []⟩

/-- The comparator `>=1.2.3-1`. -/
def cmpPre : Comparator := ⟨.GreaterEq, 1, some 2, some 3, [identOne]⟩

/-- The comparator `=1.0.0`. -/
def cmpExactOne : Comparator := ⟨.Exact, 1, some 0, some 0, []⟩

/-- The comparator `=2.0.0`. -/
def cmpExactTwo : Comparator := ⟨.Exact, 2, some 0, some 0, []⟩

/-- The requirement `=1.0.0, =2.0.0` (two ranges). -/
def reqTwoRanges : VersionReq := ⟨[.Simple cmpExactOne, .Simple cmpExactTwo]⟩

/-- The single-range requirement `>=1.2.3-1`. -/
def reqPre : VersionReq := ⟨[.Simple cmpPre]⟩

/-! Helper lemmas shared by the claim theorems. -/

lemma pre_is_compatible_iff (cmp : Comparator) (ver : Version) :
    pre_is_compatible cmp ver = true ↔
      cmp.major = ver.major ∧ cmp.minor = some ver.minor ∧
        cmp.patch = some ver.patch ∧ cmp.pre ≠ [] := by
  simp [pre_is_compatible, List.isEmpty_iff, and_assoc]

lemma range_pre_compatible_iff (ver : Version) (r : VersionRange) :
    range_pre_compatible ver r = true ↔
      ∃ c ∈ rangeComparators r,
        c.major = ver.major ∧ c.minor = some ver.minor ∧
          c.patch = some ver.patch ∧ c.pre ≠ [] := by
  cases r <;> simp [range_pre_compatible, rangeComparators, pre_is_compatible_iff]

lemma range_matches_iff (ver : Version) (r : VersionRange) :
    range_matches ver r = true ↔ RangeMatchesSpec ver r := by
  cases r <;> simp [range_matches, RangeMatchesSpec]

lemma matches_req_eq (req : VersionReq) (ver : Version) :
    matches_req req ver =
      (req.ranges.isEmpty || (req.ranges.any (range_matches ver) &&
        (ver.pre.isEmpty || req.ranges.any (range_pre_compatible ver)))) := by
  rw [matches_req]
  cases h1 : req.ranges.isEmpty <;> cases h2 : req.ranges.any (range_matches ver) <;>
    cases h3 : ver.pre.isEmpty <;> simp [h1, h2, h3]

/-! The claim theorems. -/

/-- C1: for every `VersionReq` with non-empty ranges and every `Version`
whose numeric constraints match (step 2): if `ver.pre` is empty then
`matches_req` returns true; if `ver.pre` is non-empty then `matches_req`
returns true if and only if at least one range contains a comparator whose
major equals `ver.major`, whose minor and patch are present and equal
`ver.minor` and `ver.patch`, and whose own pre sequence is non-empty (for a
`Hyphen` range, either bound may supply this). -/
theorem matches_req_pre_release_gate (req : VersionReq) (ver : Version)
    (hne : req.ranges ≠ [])
    (hnum : req.ranges.any (range_matches ver) = true) :
    (ver.pre = [] → matches_req req ver = true) ∧
    (ver.pre ≠ [] → (matches_req req ver = true ↔
      ∃ r ∈ req.ranges, ∃ c ∈ rangeComparators r,
        c.major = ver.major ∧ c.minor = some ver.minor ∧
          c.patch = some ver.patch ∧ c.pre ≠ [])) := by
  have hne' : req.ranges.isEmpty = false := by
    simpa [List.isEmpty_iff] using hne
  constructor
  · intro hp
    simp [matches_req_eq, hnum, hp]
  · intro hp
    have hp' : ver.pre.isEmpty = false := by
      simpa [List.isEmpty_iff] using hp
    rw [matches_req_eq]
    simp [hne', hnum, hp', List.any_eq_true, range_pre_compatible_iff]

/-- Witness for C1 at the requirement `>=1.2.3-1` and version `1.2.3-1`. -/
theorem matches_req_pre_release_gate_witness :
    (verPre.pre = [] → matches_req reqPre verPre = true) ∧
    (verPre.pre ≠ [] → (matches_req reqPre verPre = true ↔
      ∃ r ∈ reqPre.ranges, ∃ c ∈ rangeComparators r,
        c.major = verPre.major ∧ c.minor = some verPre.minor ∧
          c.patch = some verPre.patch ∧ c.pre ≠ [])) :=
  matches_req_pre_release_gate reqPre verPre (by decide) (by decide)

/-- C2 counterexample: the requirement `=1.0.0, =2.0.0` has two ranges and
`matches_req` accepts `1.0.0` although the second range is not satisfied,
so ranges are not conjunctive. -/
theorem conjunctive_ranges_counterexample :
    reqTwoRanges.ranges.length > 1 ∧
    matches_req reqTwoRanges verRelease = true ∧
    VersionRange.Simple cmpExactTwo ∈ reqTwoRanges.ranges ∧
    range_matches verRelease (VersionRange.Simple cmpExactTwo) = false := by
  decide

/-- C2 (amended): for every `VersionReq` whose ranges sequence has more than
one element and every `Version`, `matches_req` returns true only if at least
one range in the sequence is satisfied by the version — the ranges of one
`VersionReq` are combined disjunctively, not conjunctively. -/
theorem matches_req_needs_some_range (req : VersionReq) (ver : Version)
    (hlen : req.ranges.length > 1) (h : matches_req req ver = true) :
    req.ranges.any (range_matches ver) = true := by
  have hne : req.ranges ≠ [] := by
    intro hh
    rw [hh] at hlen
    simp at hlen
  rw [matches_req_eq] at h
  simp [List.isEmpty_iff, hne] at h
  rw [List.any_eq_true]
  exact h.1

/-- Witness for the amended C2 at the requirement `=1.0.0, =2.0.0` and
version `1.0.0`. -/
theorem matches_req_needs_some_range_witness :
    reqTwoRanges.ranges.any (range_matches verRelease) = true :=
  matches_req_needs_some_range reqTwoRanges verRelease (by decide) (by decide)

/-- C3: for every non-empty `VersionReq` and every `Version`, the version
passes the numeric-constraint step if and only if at least one range
matches, where `Simple(cmp)` is decided by the per-operator rule for
`cmp.op` and `Hyphen(lo, hi)` holds if and only if (the version
exact-matches `lo` or is greater than `lo` per `matches_greater`) and (the
version exact-matches `hi` or is less than `hi` per `matches_less`);
moreover `matches_req` returns true only if this step succeeds. -/
theorem numeric_step_any_range (req : VersionReq) (ver : Version)
    (hne : req.ranges ≠ []) :
    (req.ranges.any (range_matches ver) = true ↔
      ∃ r ∈ req.ranges, RangeMatchesSpec ver r) ∧
    (matches_req req ver = true → ∃ r ∈ req.ranges, RangeMatchesSpec ver r) := by
  have hiff : req.ranges.any (range_matches ver) = true ↔
      ∃ r ∈ req.ranges, RangeMatchesSpec ver r := by
    simp [List.any_eq_true, range_matches_iff]
  refine ⟨hiff, fun h => ?_⟩
  rw [← hiff]
  rw [matches_req_eq] at h
  simp [List.isEmpty_iff, hne] at h
  rw [List.any_eq_true]
  exact h.1

/-- Witness for C3 at the requirement `>=1.2.3-1` and version `1.2.3-1`. -/
theorem numeric_step_any_range_witness :
    (reqPre.ranges.any (range_matches verPre) = true ↔
      ∃ r ∈ reqPre.ranges, RangeMatchesSpec verPre r) ∧
    (matches_req reqPre verPre = true →
      ∃ r ∈ reqPre.ranges, RangeMatchesSpec verPre r) :=
  numeric_step_any_range reqPre verPre (by decide)

/-- C7: for every `Version`, `matches_req` applied to a `VersionReq` whose
ranges sequence is empty returns true, regardless of the version's major,
minor, patch, pre-release and build fields. -/
theorem matches_req_empty_ranges (ver : Version) :
    matches_req ⟨[]⟩ ver = true := rfl

/-- The spec's caret rule (spec section 4.3), written as a proposition. -/
def CaretSpec (cmp : Comparator) (ver : Version) : Prop :=
  ver.major = cmp.major ∧
  (match cmp.minor, cmp.patch with
   | none, _ => True
   | some minor, none =>
     if cmp.major > 0 then minor ≤ ver.minor else ver.minor = minor
   | some minor, some patch =>
     if cmp.major > 0 then
       minor < ver.minor ∨ (ver.minor = minor ∧
         (patch < ver.patch ∨ (ver.patch = patch ∧ preGeB ver.pre cmp.pre = true)))
     else if minor > 0 then
       ver.minor = minor ∧
         (patch < ver.patch ∨ (ver.patch = patch ∧ preGeB ver.pre cmp.pre = true))
     else
       ver.minor = minor ∧ ver.patch = patch ∧ preGeB ver.pre cmp.pre = true)

/-- C4: the caret rule.  The numeric match holds only when `ver.major`
equals `cmp.major`; if `cmp.minor` is absent the match succeeds for any
minor and patch; if `cmp.minor` is present and `cmp.patch` absent, the match
requires `ver.minor >= cmp.minor` when `cmp.major > 0` and
`ver.minor == cmp.minor` when `cmp.major == 0`; if `cmp.patch` is present:
for `cmp.major > 0` the match allows a greater minor, or an equal minor with
`ver.patch >= cmp.patch`; for `cmp.major == 0` and `cmp.minor > 0` it
requires an equal minor with `ver.patch >= cmp.patch`; for
`cmp.major == 0` and `cmp.minor == 0` it requires an equal minor and patch;
in every branch where the full triple equals the comparator's,
`ver.pre >= cmp.pre` is additionally required. -/
theorem matches_caret_spec (cmp : Comparator) (ver : Version) :
    matches_caret cmp ver = true ↔ CaretSpec cmp ver := by
  obtain ⟨op, cmajor, cminor, cpatch, cpre⟩ := cmp
  obtain ⟨vmajor, vminor, vpatch, vpre, vbuild⟩ := ver
  simp only [matches_caret, CaretSpec]
  cases cminor <;> cases cpatch <;> split_ifs <;> simp_all <;> try omega
  all_goals split_ifs <;> simp_all [and_assoc]

/-- The spec's tilde rule (spec section 4.3), written as a proposition. -/
def TildeSpec (cmp : Comparator) (ver : Version) : Prop :=
  ver.major = cmp.major ∧
  (∀ minor, cmp.minor = some minor → ver.minor = minor) ∧
  (match cmp.patch with
   | some patch =>
     patch < ver.patch ∨ (ver.patch = patch ∧ preGeB ver.pre cmp.pre = true)
   | none => preGeB ver.pre cmp.pre = true)

/-- C5: the tilde rule.  The numeric match requires `ver.major == cmp.major`
and, when `cmp.minor` is present, `ver.minor == cmp.minor`; when `cmp.patch`
is present the match holds for `ver.patch > cmp.patch`, and for
`ver.patch == cmp.patch` it is gated by `ver.pre >= cmp.pre`; when
`cmp.minor` is absent, any minor and patch are accepted once the major
matches, the pre-release comparison `ver.pre >= cmp.pre` at the matching
triple remaining. -/
theorem matches_tilde_spec (cmp : Comparator) (ver : Version) :
    matches_tilde cmp ver = true ↔ TildeSpec cmp ver := by
  obtain ⟨op, cmajor, cminor, cpatch, cpre⟩ := cmp
  obtain ⟨vmajor, vminor, vpatch, vpre, vbuild⟩ := ver
  simp only [matches_tilde, TildeSpec]
  cases cminor <;> cases cpatch <;> split_ifs <;> simp_all <;> try omega
  all_goals split_ifs <;> simp_all

/-- The comparator `>1.2` (patch absent). -/
def cmpGtPartial : Comparator := ⟨.Greater, 1, some 2, none, []⟩

/-- The release version `1.2.5`. -/
def verOneTwoFive : Version := ⟨1, 2, 5, [], []⟩

/-- C6: `matches_greater` and `matches_less` with partial comparators decide
by major alone when the majors differ; when the majors are equal and
`cmp.minor` is absent they return false; when additionally the minors are
equal and `cmp.patch` is absent they return false — an absent minor or
patch can never be the field that satisfies a strict comparison. -/
theorem greater_less_partial_fields (cmp : Comparator) (ver : Version) :
    (ver.major ≠ cmp.major →
      matches_greater cmp ver = decide (ver.major > cmp.major) ∧
      matches_less cmp ver = decide (ver.major < cmp.major)) ∧
    (ver.major = cmp.major → cmp.minor = none →
      matches_greater cmp ver = false ∧ matches_less cmp ver = false) ∧
    (ver.major = cmp.major → cmp.minor = some ver.minor → cmp.patch = none →
      matches_greater cmp ver = false ∧ matches_less cmp ver = false) := by
  refine ⟨fun h => ?_, fun h1 h2 => ?_, fun h1 h2 h3 => ?_⟩ <;>
    simp_all [matches_greater, matches_less]

/-- Witness for C6 at the comparator `>1.2` and version `1.2.5`: the absent
patch makes both strict comparisons false. -/
theorem greater_less_partial_fields_witness :
    matches_greater cmpGtPartial verOneTwoFive = false ∧
    matches_less cmpGtPartial verOneTwoFive = false :=
  (greater_less_partial_fields cmpGtPartial verOneTwoFive).2.2
    (by decide) (by decide) (by decide)

/-- Follows the spec's section 7 table: whether an `ErrorKind` constructor is
one of the kinds the spec's taxonomy names. -/
def kindInSpecTable : ErrorKind → Bool
  | .Empty => true
  | .UnexpectedEnd _ => true
  | .UnexpectedChar _ _ => true
  | .UnexpectedCharAfter _ _ => true
  | .ExpectedCommaFound _ _ => false
  | .LeadingZero _ => true
  | .Overflow _ => true
  | .EmptySegment _ => true
  | .IllegalCharacter _ => true
  | .WildcardNotTheOnlyComparator _ => true
  | .UnexpectedAfterWildcard => true
  | .ExcessiveComparators => true
  | .ExpectedComparator _ => true

/-- C8 counterexample: the `ErrorKind` type has the variant
`ExpectedCommaFound`, which is not among the kinds the spec's section 7
table enumerates. -/
theorem errorkind_extra_variant_counterexample :
    kindInSpecTable (ErrorKind.ExpectedCommaFound Position.Major ',') = false := rfl

/-- C8 (amended): the `Position` type has exactly the five variants Major,
Minor, Patch, Pre and Build, and every variant of the `ErrorKind` type is
one of the kinds enumerated in the spec's section 7 table except for the
additional dead-code variant `ExpectedCommaFound`. -/
theorem error_taxonomy_shape (k : ErrorKind) :
    (∀ p : Position, p = Position.Major ∨ p = Position.Minor ∨
      p = Position.Patch ∨ p = Position.Pre ∨ p = Position.Build) ∧
    (kindInSpecTable k = true ∨
      ∃ pos ch, k = ErrorKind.ExpectedCommaFound pos ch) := by
  constructor
  · intro p
    cases p <;> simp
  · cases k <;> simp [kindInSpecTable]

/-- C9: strict comparison at an equal triple falls through to pre-release
ordering: for every comparator whose minor and patch are present and equal
the version's, with equal majors, `matches_greater` returns true if and only
if `ver.pre > cmp.pre` and `matches_less` returns true if and only if
`ver.pre < cmp.pre`; when both pre sequences are empty neither matches. -/
theorem strict_compare_equal_triple (cmp : Comparator) (ver : Version)
    (hmaj : ver.major = cmp.major) (hmin : cmp.minor = some ver.minor)
    (hpat : cmp.patch = some ver.patch) :
    (matches_greater cmp ver = true ↔ preGtB ver.pre cmp.pre = true) ∧
    (matches_less cmp ver = true ↔ preLtB ver.pre cmp.pre = true) ∧
    (ver.pre = [] → cmp.pre = [] →
      matches_greater cmp ver = false ∧ matches_less cmp ver = false) := by
  have hg : matches_greater cmp ver = preGtB ver.pre cmp.pre := by
    simp [matches_greater, hmaj, hmin, hpat]
  have hl : matches_less cmp ver = preLtB ver.pre cmp.pre := by
    simp [matches_less, hmaj, hmin, hpat]
  refine ⟨by rw [hg], by rw [hl], fun hv hc => ?_⟩
  rw [hg, hl, hv, hc]
  exact ⟨rfl, rfl⟩

/-- Witness for C9 at the comparator `>=1.2.3-1` and version `1.2.3-1`. -/
theorem strict_compare_equal_triple_witness :
    (matches_greater cmpPre verPre = true ↔ preGtB verPre.pre cmpPre.pre = true) ∧
    (matches_less cmpPre verPre = true ↔ preLtB verPre.pre cmpPre.pre = true) ∧
    (verPre.pre = [] → cmpPre.pre = [] →
      matches_greater cmpPre verPre = false ∧ matches_less cmpPre verPre = false) :=
  strict_compare_equal_triple cmpPre verPre (by decide) (by decide) (by decide)

/-- C10: single-comparator pre-release gating: for every comparator and
every version with non-empty pre, `matches_comparator` returns true only if
`cmp.major == ver.major`, `cmp.minor == Some(ver.minor)`,
`cmp.patch == Some(ver.patch)` and `cmp.pre` is non-empty; consequently a
comparator with an absent minor or absent patch never matches any
pre-release version, whatever its operator. -/
theorem matches_comparator_pre_release_gate (cmp : Comparator) (ver : Version)
    (hpre : ver.pre ≠ []) :
    (matches_comparator cmp ver = true →
      cmp.major = ver.major ∧ cmp.minor = some ver.minor ∧
        cmp.patch = some ver.patch ∧ cmp.pre ≠ []) ∧
    ((cmp.minor = none ∨ cmp.patch = none) →
      matches_comparator cmp ver = false) := by
  have hp' : ver.pre.isEmpty = false := by simpa [List.isEmpty_iff] using hpre
  constructor
  · intro h
    rw [matches_comparator] at h
    simp [hp'] at h
    exact (pre_is_compatible_iff cmp ver).mp h.2
  · intro hcase
    rw [matches_comparator]
    have hfalse : pre_is_compatible cmp ver = false := by
      cases hq : pre_is_compatible cmp ver
      · rfl
      · exfalso
        rcases (pre_is_compatible_iff cmp ver).mp hq with ⟨_, h2, h3, _⟩
        rcases hcase with hc | hc <;> simp_all
    simp [hp', hfalse]

/-- Witness for C10 at the comparator `>=1.2.3-1` and version `1.2.3-1`. -/
theorem matches_comparator_pre_release_gate_witness :
    cmpPre.major = verPre.major ∧ cmpPre.minor = some verPre.minor ∧
      cmpPre.patch = some verPre.patch ∧ cmpPre.pre ≠ [] :=
  (matches_comparator_pre_release_gate cmpPre verPre (by decide)).1 (by decide)

end Semver
